import Mathlib

set_option maxRecDepth 4000

/-!
Verification of the OCR question-bank repository against its specification.

The embedding models the Python sources directly:
  * `syllabus_parser.py` — `validate_syllabus_json`, `split_topics`,
    `parse_syllabus_text`, `extract_topics_and_cos`, `SUBJECT_HEADING_RE`,
    `YEAR_SEM_RE`;
  * `gemini_handler.py` — `_keyword_matcher`, `analyze_question`;
  * `app.py` (lines 199-218) — the question-splitting part of
    `analyze_questions_against_syllabus`.

Modelling conventions: Python strings are lists of characters; Python floats
are exact rationals; JSON-like Python values are an inductive type; regular
expressions are compiled to executable backtracking matchers that follow
CPython's leftmost / greedy / lazy preference order for the concrete patterns
appearing in the source.  Raised exceptions are `Except` errors.
-/

abbrev Str := List Char

def str (s : String) : Str := s.data

/-- Python whitespace for `str.strip`, `str.split()` and the regex class `\s`
(ASCII part: space, tab, newline, carriage return, vertical tab, form feed). -/
def isPySpace (c : Char) : Bool :=
  c = ' ' || c = '\t' || c = '\n' || c = '\r' || c = Char.ofNat 11 || c = Char.ofNat 12

/-- Python `str.strip()` with no arguments. -/
def pstrip (s : Str) : Str :=
  ((s.dropWhile isPySpace).reverse.dropWhile isPySpace).reverse

def between (lo hi c : Char) : Bool := decide (lo ≤ c ∧ c ≤ hi)

/-- ASCII lowering, the effect of Python `str.lower()` on the ASCII inputs
handled by this program. -/
def asciiLower (c : Char) : Char :=
  if between 'A' 'Z' c then Char.ofNat (c.toNat + 32) else c

def lowerStr (s : Str) : Str := s.map asciiLower

/-- Does `pat` occur in `hay` starting at index `i`? -/
def matchAt (hay pat : Str) (i : Nat) : Bool :=
  (hay.drop i).take pat.length == pat

/-- Python substring containment `pat in hay`. -/
def isSubstr (pat hay : Str) : Bool :=
  (List.range (hay.length + 1)).any (fun i => matchAt hay pat i)

/-- Helper for Python `str.split()` (split on whitespace runs, no empties). -/
def pySplitAux : Str → Str → List Str
  | [], cur => if cur.isEmpty then [] else [cur.reverse]
  | c :: rest, cur =>
    if isPySpace c then
      if cur.isEmpty then pySplitAux rest [] else cur.reverse :: pySplitAux rest []
    else pySplitAux rest (c :: cur)

/-- Python `str.split()` with no arguments. -/
def pySplit (s : Str) : List Str := pySplitAux s []

/-- Split on every occurrence of one character, keeping empty parts
(Python `str.split(d)` for a one-character separator). -/
def splitCharAux (d : Char) : Str → Str → List Str
  | [], cur => [cur.reverse]
  | c :: rest, cur =>
    if c = d then cur.reverse :: splitCharAux d rest [] else splitCharAux d rest (c :: cur)

def splitChar (d : Char) (s : Str) : List Str := splitCharAux d s []

/-- Python `str.splitlines()` for texts whose line separator is `\n`
(the OCR pipeline normalizes line endings to `\n`). -/
def splitlinesPy (s : Str) : List Str :=
  if s.isEmpty then []
  else
    let parts := splitChar '\n' s
    if s.getLast? = some '\n' then parts.dropLast else parts

/-- First index at which `sep` occurs in `s`. -/
def findSubAt (sep s : Str) : Option Nat :=
  (List.range (s.length + 1)).find? (fun i => matchAt s sep i)

def splitSubFuel (sep : Str) : Nat → Str → List Str
  | 0, s => [s]
  | fuel+1, s =>
    match findSubAt sep s with
    | some i => s.take i :: splitSubFuel sep fuel (s.drop (i + sep.length))
    | none => [s]

/-- Python `str.split(sep)` for a non-empty separator string. -/
def splitSub (sep s : Str) : List Str := splitSubFuel sep (s.length + 1) s

/-- Python `sep.join(l)`. -/
def joinSep (sep : Str) : List Str → Str
  | [] => []
  | [x] => x
  | x :: xs => x ++ sep ++ joinSep sep xs

/-- Python `dict.fromkeys(l)` used as order-preserving deduplication. -/
def dedupFirst (l : List Str) : List Str :=
  l.foldl (fun acc t => if t ∈ acc then acc else acc ++ [t]) []

/-- Word characters of the regex class `\w` / the `\b` assertion (ASCII part). -/
def isWordChar (c : Char) : Bool :=
  between 'a' 'z' c || between 'A' 'Z' c || between '0' '9' c || c = '_'

def wordAtPos (s : Str) (i : Nat) : Bool :=
  match s[i]? with
  | some c => isWordChar c
  | none => false

/-- The regex assertion `\b` at position `p` of `s`. -/
def boundaryAt (s : Str) (p : Nat) : Bool :=
  (if p = 0 then false else wordAtPos s (p - 1)) != wordAtPos s p

/-- `re.search` of the literal word `pat` wrapped in `\b...\b`
(as in `\bdefine\b`, `\bwhat is\b`, `\ba\)\b`). -/
def searchB (pat s : Str) : Bool :=
  (List.range (s.length + 1)).any
    (fun i => matchAt s pat i && boundaryAt s i && boundaryAt s (i + pat.length))

/-- Case-insensitive "starts with" (regex prefix match of a literal). -/
def ciStarts (pat s : Str) : Bool :=
  lowerStr (s.take pat.length) == lowerStr pat

/-! ## Data model (`SubjectRecord` as produced by the parsers, `MatchResult`) -/

/-- One syllabus record as built by `parse_syllabus_text` /
consumed by `_keyword_matcher` (all fields are strings or string lists,
and every key is present, as in the dictionaries the parsers emit). -/
structure Subject where
  subject : Str
  subject_code : Str
  year : Str
  semester : Str
  topics : List Str
  course_outcomes : List Str
  raw_text : Str
deriving DecidableEq

/-- The nine result fields shared by the AI and the heuristic matcher
(`question_type` is the literal Python string; `confidence_score` is the
Python float modelled exactly). -/
structure MatchResult where
  question_text : Str
  question_type : Str
  probable_topic : Str
  course_outcome : Str
  subject_name : Str
  subject_code : Str
  year : Str
  semester : Str
  confidence_score : ℚ
deriving DecidableEq

def nfStr : Str := str "Not Found"

/-! ## `gemini_handler._keyword_matcher` -/

/-- `re.search(r'\bdefine\b|\bwhat is\b|\bwhat are\b', qlow)`. -/
def shortAnswerHit (qlow : Str) : Bool :=
  searchB (str "define") qlow || searchB (str "what is") qlow || searchB (str "what are") qlow

/-- `re.search(r'\bexplain\b|\bdescribe\b|\bdiscuss\b|\belaborate\b', qlow)`. -/
def broadAnswerHit (qlow : Str) : Bool :=
  searchB (str "explain") qlow || searchB (str "describe") qlow ||
  searchB (str "discuss") qlow || searchB (str "elaborate") qlow

/-- `re.search(r'\bchoose\b|\boption\b|\bmcq\b|\ba\)\b', qlow)`. -/
def mcqHit (qlow : Str) : Bool :=
  searchB (str "choose") qlow || searchB (str "option") qlow ||
  searchB (str "mcq") qlow || searchB (str "a)") qlow

/-- The three sequential `if` statements of `_keyword_matcher` that overwrite
`best["question_type"]`, starting from `"Other"`. -/
def heuristicQuestionType (qlow : Str) : Str :=
  let t1 := str "Other"
  let t2 := if shortAnswerHit qlow then str "Short Answer" else t1
  let t3 := if broadAnswerHit qlow then str "Broad Answer" else t2
  if mcqHit qlow then str "MCQ" else t3

/-- `for tok in name.split(): if tok and tok in qlow: score += 2`. -/
def tokenScore2 (qlow name : Str) : Nat :=
  (pySplit name).foldl (fun a tok => if !tok.isEmpty && isSubstr tok qlow then a + 2 else a) 0

/-- The per-topic contribution: `+5` for a verbatim phrase hit, else `+1` per
token found. -/
def topicScore (qlow t : Str) : Nat :=
  let t0 := lowerStr t
  if !t0.isEmpty && isSubstr t0 qlow then 5
  else (pySplit t0).foldl (fun b w => if !w.isEmpty && isSubstr w qlow then b + 1 else b) 0

/-- The per-course-outcome contribution: `+1` per token found. -/
def coScore (qlow c : Str) : Nat :=
  (pySplit (lowerStr c)).foldl (fun b w => if !w.isEmpty && isSubstr w qlow then b + 1 else b) 0

/-- The `score` computed for one subject inside `_keyword_matcher`'s loop. -/
def subjectScore (qlow : Str) (subj : Subject) : Nat :=
  (if !subj.subject.isEmpty then tokenScore2 qlow (lowerStr subj.subject) else 0)
  + (if !subj.subject_code.isEmpty && isSubstr (lowerStr subj.subject_code) qlow then 2 else 0)
  + (subj.topics.foldl (fun a t => a + topicScore qlow t) 0)
  + (subj.course_outcomes.foldl (fun a c => a + coScore qlow c) 0)

/-- The initial `best` dictionary of `_keyword_matcher` (before the subject
loop and before the confidence assignment). -/
def sentinelResult (q qt : Str) : MatchResult :=
  ⟨q, qt, nfStr, nfStr, nfStr, nfStr, nfStr, nfStr, 0⟩

/-- The block of `best[...] = ...` assignments executed when a subject beats
the running maximum. -/
def updateBest (best : MatchResult) (subj : Subject) : MatchResult :=
  { best with
    subject_name := if subj.subject.isEmpty then nfStr else subj.subject,
    subject_code := if subj.subject_code.isEmpty then nfStr else subj.subject_code,
    probable_topic := if subj.topics.isEmpty then nfStr
                      else joinSep (str ", ") (subj.topics.take 2),
    course_outcome := match subj.course_outcomes with
                      | c :: _ => c
                      | [] => nfStr,
    year := subj.year,
    semester := subj.semester }

/-- The `for subj in syllabus` loop of `_keyword_matcher`, carrying
`(max_score, best)`. -/
def keywordMatcherLoop (qlow : Str) (syllabus : List Subject) (acc : Nat × MatchResult) :
    Nat × MatchResult :=
  syllabus.foldl
    (fun p subj =>
      let score := subjectScore qlow subj
      if p.1 < score then (score, updateBest p.2 subj) else p) acc

/-- `gemini_handler._keyword_matcher`. -/
def keywordMatcher (question_text : Str) (syllabus : List Subject) : MatchResult :=
  let qlow := lowerStr question_text
  let qt := heuristicQuestionType qlow
  let st := keywordMatcherLoop qlow syllabus (0, sentinelResult question_text qt)
  { st.2 with confidence_score := min (0.95 : ℚ) ((0.1 : ℚ) + (st.1 : ℚ) * (0.05 : ℚ)) }

/-! ## `gemini_handler.analyze_question` -/

/-- The fields of a successfully decoded Gemini JSON object; `none` models a
missing key (the `confidence_score` field stands for a present and
float-convertible value). -/
structure ParsedAI where
  question_text : Option Str
  question_type : Option Str
  probable_topic : Option Str
  course_outcome : Option Str
  subject_name : Option Str
  subject_code : Option Str
  year : Option Str
  semester : Option Str
  confidence_score : Option ℚ

/-- The full output dictionary of `analyze_question`. -/
structure AnalyzeOut where
  result : MatchResult
  ai_raw_output : Option Str
  error_message : Option Str
deriving DecidableEq

/-- The initial `out` dictionary of `analyze_question`. -/
def initialOut (q : Str) : AnalyzeOut :=
  ⟨⟨q, nfStr, nfStr, nfStr, nfStr, nfStr, nfStr, nfStr, 0⟩, none, none⟩

/-- `out.update({k: parsed.get(k, out[k]) ...})` plus the float coercion of
`confidence_score`. -/
def applyParsed (out : MatchResult) (p : ParsedAI) : MatchResult :=
  { question_text := p.question_text.getD out.question_text,
    question_type := p.question_type.getD out.question_type,
    probable_topic := p.probable_topic.getD out.probable_topic,
    course_outcome := p.course_outcome.getD out.course_outcome,
    subject_name := p.subject_name.getD out.subject_name,
    subject_code := p.subject_code.getD out.subject_code,
    year := p.year.getD out.year,
    semester := p.semester.getD out.semester,
    confidence_score := p.confidence_score.getD out.confidence_score }

/-- `gemini_handler.analyze_question`.  The external Gemini call is the
parameter: `none` models an unconfigured client (`genai`/key missing),
`some (.error e)` a call that raised with message `e`, and
`some (.ok (parsed, raw))` a successful call returning decoded JSON `parsed`
and raw text `raw`.  The fallback keyword matcher is total, so the Python
`try/except` around it always takes the success path. -/
def analyzeQuestion (gemini : Option (Except Str (ParsedAI × Str)))
    (q : Str) (syllabus : List Subject) : AnalyzeOut :=
  let out := initialOut q
  match gemini with
  | some (.ok (parsed, raw)) =>
    { out with result := applyParsed out.result parsed, ai_raw_output := some raw }
  | some (.error e) =>
    { out with result := keywordMatcher q syllabus,
               error_message := some (str "Gemini error: " ++ e) }
  | none =>
    { out with result := keywordMatcher q syllabus }

/-! ## `syllabus_parser.SUBJECT_HEADING_RE` and `parse_syllabus_text`

`SUBJECT_HEADING_RE = ^\s*\(?([A-Z0-9/]+)\)?\s*[\-\:\)]?\s*(.+)$` with
`re.IGNORECASE`, applied with `.match` to single lines.  The matcher below
replays CPython's backtracking order: each `\s*` is greedy and backs off,
`\(?` / `\)?` / `[\-\:\)]?` prefer to consume, the captured code run is
greedy, and `(.+)$` takes everything left (at least one character). -/

/-- The class `[A-Z0-9/]` under `re.IGNORECASE`. -/
def isCodeChar (c : Char) : Bool :=
  between 'A' 'Z' c || between 'a' 'z' c || between '0' '9' c || c = '/'

/-- `[m, m-1, ..., 0]`: the order in which a greedy element of maximal span
`m` offers its lengths while backtracking. -/
def descRange (m : Nat) : List Nat := (List.range (m + 1)).reverse

/-- `\s*(.+)$` on `u`, returning the `(.+)` capture. -/
def wsSearchFrom (u : Str) : Option Str :=
  (descRange (u.takeWhile isPySpace).length).findSome?
    (fun w2 => let t := u.drop w2; if t.isEmpty then none else some t)

/-- `[\-\:\)]?\s*(.+)$` on `u` (separator consumed first, then not). -/
def sepSearch (u : Str) : Option Str :=
  match u with
  | [] => none
  | c :: v =>
    if c = '-' || c = ':' || c = ')' then
      match wsSearchFrom v with
      | some t => some t
      | none => wsSearchFrom u
    else wsSearchFrom u

/-- `\s*[\-\:\)]?\s*(.+)$` on `s`. -/
def tailSepSearch (s : Str) : Option Str :=
  (descRange (s.takeWhile isPySpace).length).findSome? (fun w1 => sepSearch (s.drop w1))

/-- `\)?\s*[\-\:\)]?\s*(.+)$` on `rest` (close paren consumed first). -/
def tryTail (rest : Str) : Option Str :=
  match rest with
  | c :: v =>
    if c = ')' then
      match tailSepSearch v with
      | some t => some t
      | none => tailSepSearch (c :: v)
    else tailSepSearch (c :: v)
  | [] => tailSepSearch []

/-- `([A-Z0-9/]+)\)?\s*[\-\:\)]?\s*(.+)$` on `s`: the greedy code capture
backs off from the longest run; returns `(code, title)`. -/
def tryCode (s : Str) : Option (Str × Str) :=
  let run := s.takeWhile isCodeChar
  if run.isEmpty then none
  else
    (descRange run.length).findSome? (fun k =>
      if k = 0 then none
      else
        match tryTail (s.drop k) with
        | some t => some (s.take k, t)
        | none => none)

/-- `SUBJECT_HEADING_RE.match(line)`, returning the two captured groups.
The leading `\s*` keeps its maximal span (giving any character back would
leave a whitespace character where `\(?[A-Z0-9/]` must match), and `\(?`
prefers to consume an opening parenthesis. -/
def headingMatch (line : Str) : Option (Str × Str) :=
  match line.dropWhile isPySpace with
  | c :: v =>
    if c = '(' then
      match tryCode v with
      | some res => some res
      | none => tryCode (c :: v)
    else tryCode (c :: v)
  | [] => tryCode []

/-! ### `extract_topics_and_cos` -/

/-- The trigger substrings that switch the scan into course-outcome mode. -/
def coTriggerStrings : List Str :=
  [str "course outcome", str "course outcomes", str "learning outcomes",
   str "outcomes", str "course objective"]

def coTrigger (low : Str) : Bool := coTriggerStrings.any (fun k => isSubstr k low)

/-- The alternatives of `^(course outcomes?|learning outcomes?|course
objectives?)` in the order the regex engine tries them (plural first inside
each branch, branches left to right). -/
def coHeaderAlts : List Str :=
  [str "course outcomes", str "course outcome", str "learning outcomes",
   str "learning outcome", str "course objectives", str "course objective"]

/-- `re.sub(r'^(course outcomes?|learning outcomes?|course objectives?)[:\-\s]*', '', line, flags=re.I)`. -/
def stripCoHeader (line : Str) : Str :=
  match coHeaderAlts.find? (fun a => ciStarts a line) with
  | some a => (line.drop a.length).dropWhile (fun c => c = ':' || c = '-' || isPySpace c)
  | none => line

/-- `re.match(r'^(Module|Unit|Chapter)\b', line, re.I)`. -/
def moduleLineHit (line : Str) : Bool :=
  [str "module", str "unit", str "chapter"].any
    (fun w => ciStarts w line && !(wordAtPos line w.length))

/-- The bullet / comma / colon / Module-Unit-Chapter topic test. -/
def topicLineHit (line : Str) : Bool :=
  (match line with
   | c :: _ => c = '•' || c = '-' || c = '*'
   | [] => false)
  || line.contains ','
  || line.contains ':'
  || moduleLineHit line

/-- The scan over `lines[1:]` of `extract_topics_and_cos`, carrying
`co_mode` and the two accumulators. -/
def extractLoop : List Str → Bool → List Str → List Str → List Str × List Str
  | [], _, topics, cos => (topics, cos)
  | line :: rest, coMode, topics, cos =>
    if coTrigger (lowerStr line) then
      let remainder := pstrip (stripCoHeader line)
      extractLoop rest true topics (if remainder.isEmpty then cos else cos ++ [remainder])
    else if coMode then
      extractLoop rest true topics (cos ++ [line])
    else if topicLineHit line then
      extractLoop rest false (topics ++ [line]) cos
    else if (pySplit line).length ≤ 12 then
      extractLoop rest false (topics ++ [line]) cos
    else
      extractLoop rest false topics cos

/-- `lines = [l.strip() for l in block_text.splitlines() if l.strip()]`. -/
def blockLines (block_text : Str) : List Str :=
  ((splitlinesPy block_text).map pstrip).filter (fun l => !l.isEmpty)

/-- The topic/outcome lists before the final cleanup comprehension. -/
def extractRaw (block_text : Str) : List Str × List Str :=
  extractLoop ((blockLines block_text).drop 1) false [] []

/-- `[t.strip() for t in dict.fromkeys(l) if t.strip()]`. -/
def cleanupEntries (l : List Str) : List Str :=
  (dedupFirst l).filterMap (fun t => if (pstrip t).isEmpty then none else some (pstrip t))

/-- `syllabus_parser.extract_topics_and_cos`. -/
def extractTopicsAndCos (block_text : Str) : List Str × List Str :=
  (cleanupEntries (extractRaw block_text).1, cleanupEntries (extractRaw block_text).2)

/-! ### `YEAR_SEM_RE` and `parse_syllabus_text` -/

def isDigitChar (c : Char) : Bool := between '0' '9' c

/-- `(?:st|nd|rd|th)` at position `i`, case-insensitively. -/
def ordinalAt (s : Str) (i : Nat) : Bool :=
  let two := lowerStr ((s.drop i).take 2)
  two == str "st" || two == str "nd" || two == str "rd" || two == str "th"

/-- `\d+(?:st|nd|rd|th)\s+<word>` at position `p` of `s` (case-insensitive);
returns the end position.  The digit run and the whitespace run keep their
maximal spans (no shorter span can be followed by the required literal). -/
def yearCoreAt (s : Str) (p : Nat) (word : Str) : Option Nat :=
  let d := ((s.drop p).takeWhile isDigitChar).length
  if d = 0 then none
  else
    let q := p + d
    if ordinalAt s q then
      let w := ((s.drop (q + 2)).takeWhile isPySpace).length
      if w = 0 then none
      else
        let r := q + 2 + w
        if ciStarts word (s.drop r) then some (r + word.length) else none
    else none

/-- `YEAR_SEM_RE.search`: the pattern is
`(\d+(?:st|nd|rd|th)\s+Year).{0,40}?(\d+(?:st|nd|rd|th)\s+Semester)?`.
Because the gap `.{0,40}?` is lazy and the semester group is optional, the
semester group is captured only when it matches immediately after the year
group; otherwise it is `None` (modelled as the empty string after the
`(ym.group(2) or "").strip()` in the caller). -/
def yearSemSearch (s : Str) : Option (Str × Str) :=
  (List.range (s.length + 1)).findSome? (fun p =>
    match yearCoreAt s p (str "year") with
    | some e1 =>
      let g1 := pstrip ((s.drop p).take (e1 - p))
      let g2 := match yearCoreAt s e1 (str "semester") with
        | some e2 => pstrip ((s.drop e1).take (e2 - e1))
        | none => []
      some (g1, g2)
    | none => none)

/-- The record built for one block (`subject`/`subject_code` stripped, empty
year and semester, extracted topics and outcomes, raw block kept). -/
def mkBlockRecord (code title block : Str) : Subject :=
  ⟨pstrip title, pstrip code, [], [], (extractTopicsAndCos block).1,
   (extractTopicsAndCos block).2, block⟩

/-- Indices of the lines matched by `SUBJECT_HEADING_RE`. -/
def headingIdxs (lines : List Str) : List Nat :=
  (List.range lines.length).filter (fun i => (headingMatch (lines.getD i [])).isSome)

/-- The per-heading block loop of `parse_syllabus_text`. -/
def headingBlocksAux (lines : List Str) : List Nat → List Subject
  | [] => []
  | start :: restIdxs =>
    let endIdx := match restIdxs with
      | n :: _ => n
      | [] => lines.length
    let block := pstrip (joinSep (str "\n") ((lines.drop start).take (endIdx - start)))
    let first_line := lines.getD start []
    let r := match headingMatch first_line with
      | some ct => mkBlockRecord ct.1 ct.2 block
      | none => mkBlockRecord [] first_line block
    r :: headingBlocksAux lines restIdxs

/-- The zero-headings fallback: split on blank-line paragraphs. -/
def paragraphRecords (raw_text : Str) : List Subject :=
  ((((splitSub (str "\n\n") raw_text).map pstrip).filter (fun p => !p.isEmpty)).map
    (fun p =>
      let title_line := (splitlinesPy p).getD 0 []
      match headingMatch title_line with
      | some ct => mkBlockRecord ct.1 ct.2 p
      | none => mkBlockRecord [] title_line p))

/-- The document-wide year/semester backfill at the end of
`parse_syllabus_text` (main branch only). -/
def applyYearSem (ys : Option (Str × Str)) (blocks : List Subject) : List Subject :=
  match ys with
  | none => blocks
  | some p =>
    blocks.map (fun b =>
      { b with year := if b.year.isEmpty then p.1 else b.year,
               semester := if b.semester.isEmpty then p.2 else b.semester })

/-- `syllabus_parser.parse_syllabus_text`. -/
def parseSyllabusText (raw_text : Str) : List Subject :=
  let lines := splitlinesPy raw_text
  let idxs := headingIdxs lines
  if idxs.isEmpty then paragraphRecords raw_text
  else applyYearSem (yearSemSearch raw_text) (headingBlocksAux lines idxs)

/-! ## `syllabus_parser.validate_syllabus_json`

Structured input is a JSON-like Python value.  Numbers are modelled as
integers (the JSON inputs this program handles carry integer years and
semesters).  A raised Python exception is an `Except.error`: the explicit
`ValueError` for a non-list input, and the `AttributeError` that `.strip()`
raises when a resolved subject/code value is a truthy non-string. -/

inductive JValue where
  | null : JValue
  | bool : Bool → JValue
  | num : Int → JValue
  | str : Str → JValue
  | arr : List JValue → JValue
  | obj : List (Str × JValue) → JValue

inductive PyErr where
  | valueError : Str → PyErr
  | attributeError : Str → PyErr

/-- Python truthiness of a JSON-like value. -/
def truthy : JValue → Bool
  | .null => false
  | .bool b => b
  | .num n => n != 0
  | .str s => !s.isEmpty
  | .arr l => !l.isEmpty
  | .obj l => !l.isEmpty

/-- Python `a or b` (first operand when truthy, else second). -/
def pyOr (a b : JValue) : JValue := if truthy a then a else b

/-- `item.get(k)` (missing key gives `None`). -/
def jGet (kvs : List (Str × JValue)) (k : Str) : JValue :=
  match kvs.find? (fun kv => kv.1 == k) with
  | some kv => kv.2
  | none => JValue.null

/-- `item.get(k, default)`. -/
def jGetD (kvs : List (Str × JValue)) (k : Str) (dflt : JValue) : JValue :=
  match kvs.find? (fun kv => kv.1 == k) with
  | some kv => kv.2
  | none => dflt

def intStr (n : Int) : Str := (toString n).data

mutual
/-- Python `repr` of a JSON-like value (string escaping not modelled; the
character 39 is the single-quote delimiter `repr` uses). -/
def pyRepr : JValue → Str
  | .null => str "None"
  | .bool true => str "True"
  | .bool false => str "False"
  | .num n => intStr n
  | .str s => Char.ofNat 39 :: (s ++ [Char.ofNat 39])
  | .arr l => '[' :: (joinSep (str ", ") (pyReprList l) ++ [']'])
  | .obj kvs => Char.ofNat 123 :: (joinSep (str ", ") (pyReprPairs kvs) ++ [Char.ofNat 125])

def pyReprList : List JValue → List Str
  | [] => []
  | v :: vs => pyRepr v :: pyReprList vs

def pyReprPairs : List (Str × JValue) → List Str
  | [] => []
  | kv :: kvs =>
    (Char.ofNat 39 :: (kv.1 ++ [Char.ofNat 39]) ++ str ": " ++ pyRepr kv.2) :: pyReprPairs kvs
end

/-- Python `str(v)` (identity on strings, `repr` rendering otherwise). -/
def pyStr : JValue → Str
  | .str s => s
  | v => pyRepr v

/-- The separator class of `split_topics`:
`re.split(r'[\n••;•\-–]+', text)`. -/
def topicSepChar (c : Char) : Bool :=
  c = '\n' || c = '•' || c = ';' || c = '-' || c = '–'

/-- `re.split` on runs of a character class (keeping the empty parts the
regex split produces at the ends). -/
def splitRunsFuel (p : Char → Bool) : Nat → Str → List Str
  | 0, s => [s]
  | fuel+1, s =>
    let head := s.takeWhile (fun c => !p c)
    let rest := s.drop head.length
    match rest with
    | [] => [head]
    | _ => head :: splitRunsFuel p fuel (rest.dropWhile p)

/-- `syllabus_parser.split_topics`. -/
def splitTopics (text : Str) : List Str :=
  (splitRunsFuel topicSepChar (text.length + 1) text).filterMap
    (fun p => if (pstrip p).isEmpty then none else some (pstrip p))

/-- One record as `validate_syllabus_json` actually builds it: the subject
and code have been through `.strip()` (so they are strings), while year,
semester, topics, course outcomes and raw text keep whatever values the
input mapping held. -/
structure VRecord where
  subject : Str
  subject_code : Str
  year : JValue
  semester : JValue
  topics : List JValue
  course_outcomes : List JValue
  raw_text : JValue

/-- Python `.strip()` on a resolved field value: only strings have the
method; any truthy non-string raises `AttributeError`. -/
def pyStripJ : JValue → Except PyErr Str
  | .str s => .ok (pstrip s)
  | _ => .error (.attributeError (str "object has no attribute strip"))

/-- `topics if isinstance(topics, list) else [t.strip() for t in split_topics(str(topics))]`. -/
def normListField : JValue → List JValue
  | .arr l => l
  | v => (splitTopics (pyStr v)).map (fun t => .str (pstrip t))

/-- The body of the `for item in obj` loop for one mapping element. -/
def buildRecord (item : List (Str × JValue)) : Except PyErr VRecord :=
  match pyStripJ (pyOr (jGet item (str "subject"))
      (pyOr (jGet item (str "subject_name")) (pyOr (jGet item (str "title")) (.str [])))) with
  | .error e => .error e
  | .ok subject =>
    match pyStripJ (pyOr (jGet item (str "subject_code"))
        (pyOr (jGet item (str "code")) (.str []))) with
    | .error e => .error e
    | .ok code =>
      .ok { subject := subject,
            subject_code := code,
            year := jGetD item (str "year") (.str []),
            semester := jGetD item (str "semester") (.str []),
            topics := normListField (pyOr (jGet item (str "topics"))
              (pyOr (jGet item (str "syllabus")) (.arr []))),
            course_outcomes := normListField (pyOr (jGet item (str "course_outcomes"))
              (pyOr (jGet item (str "course_outcome")) (.arr []))),
            raw_text := jGetD item (str "raw_text") (.str []) }

/-- The `for item in obj` loop (non-mapping elements are skipped; a raised
exception aborts the loop). -/
def validateItems : List JValue → Except PyErr (List VRecord)
  | [] => .ok []
  | item :: rest =>
    match item with
    | .obj kvs =>
      match buildRecord kvs with
      | .ok r =>
        match validateItems rest with
        | .ok rs => .ok (r :: rs)
        | .error e => .error e
      | .error e => .error e
    | _ => validateItems rest

/-- `syllabus_parser.validate_syllabus_json`. -/
def validateSyllabusJson : JValue → Except PyErr (List VRecord)
  | .arr items => validateItems items
  | _ => .error (.valueError (str "Syllabus JSON should be a list of subjects."))

def isArr : JValue → Bool
  | .arr _ => true
  | _ => false

def isObj : JValue → Bool
  | .obj _ => true
  | _ => false

/-- Did the call raise the `InvalidFormat` error (the explicit `ValueError`)? -/
def isInvalidFormat {α : Type} : Except PyErr α → Bool
  | .error (.valueError _) => true
  | _ => false

/-- Did the call raise an `AttributeError`? -/
def isAttrErrorRes {α : Type} : Except PyErr α → Bool
  | .error (.attributeError _) => true
  | _ => false

/-- Project a `JValue` list to the underlying strings (non-strings to `[]`),
for stating concrete facts about validated topic lists. -/
def jStrListD (l : List JValue) : List Str :=
  l.map (fun v => match v with
    | .str s => s
    | _ => [])

/-! ## `app.analyze_questions_against_syllabus` — question splitting

The pattern (compiled with `re.DOTALL`) is
`(?:^|\n\s*)([a-zA-Z0-9]+\s*[\.\)])\s*(.*?)(?=\n\s*[a-zA-Z0-9]+\s*[\.\)]|\Z)`
used through `findall`.  Every greedy element below keeps its maximal span
because the element that follows it can never start with a character the
greedy element accepts; the lazy `(.*?)` stops at the first position where
the lookahead holds (the `\Z` branch always holds at the end of the text,
`.` under DOTALL accepts every character). -/

def alnumChar (c : Char) : Bool :=
  between 'a' 'z' c || between 'A' 'Z' c || between '0' '9' c

/-- Length of the maximal run of `p`-characters starting at index `i`. -/
def runLen (p : Char → Bool) (s : Str) (i : Nat) : Nat :=
  ((s.drop i).takeWhile p).length

def isDotParen (c : Char) : Bool := c = '.' || c = ')'

/-- `[a-zA-Z0-9]+\s*[\.\)]` at `g1start`; returns the position just past the
dot or parenthesis. -/
def markerEnd (s : Str) (g1start : Nat) : Option Nat :=
  let a := runLen alnumChar s g1start
  if a = 0 then none
  else
    let w := runLen isPySpace s (g1start + a)
    match s[g1start + a + w]? with
    | some c => if isDotParen c then some (g1start + a + w + 1) else none
    | none => none

/-- The lookahead `(?=\n\s*[a-zA-Z0-9]+\s*[\.\)]|\Z)` at position `q`. -/
def lookaheadHolds (s : Str) (q : Nat) : Bool :=
  q == s.length ||
  (match s[q]? with
   | some c => c = '\n' && (markerEnd s (q + 1 + runLen isPySpace s (q + 1))).isSome
   | none => false)

/-- Smallest position `≥ cur` at which the lookahead holds (it always holds
at the end of the text). -/
def findLookaheadPos (s : Str) (cur : Nat) : Nat :=
  match (List.range (s.length + 1 - cur)).find? (fun d => lookaheadHolds s (cur + d)) with
  | some d => cur + d
  | none => s.length

/-- One match attempt of the question pattern at scan position `p`; returns
`(match end, group 1, group 2)`. -/
def tryMatchAt (s : Str) (p : Nat) : Option (Nat × Str × Str) :=
  let attempt := fun (g1start : Nat) =>
    match markerEnd s g1start with
    | some dotEnd =>
      let cur := dotEnd + runLen isPySpace s dotEnd
      let q := findLookaheadPos s cur
      some (q, (s.drop g1start).take (dotEnd - g1start), (s.drop cur).take (q - cur))
    | none => none
  if p = 0 then
    match attempt 0 with
    | some r => some r
    | none =>
      match s[0]? with
      | some c => if c = '\n' then attempt (1 + runLen isPySpace s 1) else none
      | none => none
  else
    match s[p]? with
    | some c => if c = '\n' then attempt (p + 1 + runLen isPySpace s (p + 1)) else none
    | none => none

/-- `question_split_pattern.findall(questions_text)`: scan left to right,
resuming after each (never empty) match. -/
def findallFuel (s : Str) : Nat → Nat → List (Str × Str)
  | 0, _ => []
  | fuel+1, p =>
    if s.length < p then []
    else
      match tryMatchAt s p with
      | some r => (r.2.1, r.2.2) :: findallFuel s fuel r.1
      | none => findallFuel s fuel (p + 1)

/-- Lines 210-218 of `app.py`: the regex findall, the
`f"{num} {text.strip()}"` comprehension, and the long-line fallback used
when the pattern finds nothing. -/
def segmentQuestions (questions_text : Str) : List Str :=
  let raw := findallFuel questions_text (questions_text.length + 2) 0
  let questions := raw.map (fun g => g.1 ++ [' '] ++ pstrip g.2)
  if questions.isEmpty then
    (((splitChar '\n' questions_text).map pstrip).filter (fun q => !q.isEmpty)).filter
      (fun q => 5 < (pySplit q).length)
  else questions

/-! ## Supporting lemmas for the keyword matcher -/

theorem natMax_eq_right {a b : Nat} (h : a ≤ b) : Nat.max a b = b := Nat.max_eq_right h

theorem natMax_eq_left {a b : Nat} (h : b ≤ a) : Nat.max a b = a := Nat.max_eq_left h

theorem matcher_foldl_fst (qlow : Str) :
    ∀ (syl : List Subject) (acc : Nat × MatchResult),
      (keywordMatcherLoop qlow syl acc).1 = (syl.map (subjectScore qlow)).foldl Nat.max acc.1 := by
  intro syl
  induction syl with
  | nil => intro acc; rfl
  | cons s t ih =>
    intro acc
    have hstep : keywordMatcherLoop qlow (s :: t) acc =
        keywordMatcherLoop qlow t
          (if acc.1 < subjectScore qlow s then (subjectScore qlow s, updateBest acc.2 s)
           else acc) := rfl
    rw [hstep, ih]
    by_cases h : acc.1 < subjectScore qlow s
    · simp only [if_pos h, List.map_cons, List.foldl_cons]
      rw [natMax_eq_right (Nat.le_of_lt h)]
    · simp only [if_neg h, List.map_cons, List.foldl_cons]
      rw [natMax_eq_left (Nat.le_of_not_lt h)]

theorem matcher_foldl_qt (qlow : Str) :
    ∀ (syl : List Subject) (acc : Nat × MatchResult),
      (keywordMatcherLoop qlow syl acc).2.question_type = acc.2.question_type := by
  intro syl
  induction syl with
  | nil => intro acc; rfl
  | cons s t ih =>
    intro acc
    have hstep : keywordMatcherLoop qlow (s :: t) acc =
        keywordMatcherLoop qlow t
          (if acc.1 < subjectScore qlow s then (subjectScore qlow s, updateBest acc.2 s)
           else acc) := rfl
    rw [hstep, ih]
    by_cases h : acc.1 < subjectScore qlow s
    · simp only [if_pos h]; rfl
    · simp only [if_neg h]

theorem matcher_foldl_zero (qlow : Str) :
    ∀ (syl : List Subject) (b : MatchResult),
      (∀ subj ∈ syl, subjectScore qlow subj = 0) →
      keywordMatcherLoop qlow syl (0, b) = (0, b) := by
  intro syl
  induction syl with
  | nil => intro b _; rfl
  | cons s t ih =>
    intro b h
    have hs : subjectScore qlow s = 0 := h s (List.mem_cons_self s t)
    have hstep : keywordMatcherLoop qlow (s :: t) (0, b) =
        keywordMatcherLoop qlow t
          (if (0 : Nat) < subjectScore qlow s then (subjectScore qlow s, updateBest b s)
           else (0, b)) := rfl
    rw [hstep, hs]
    simp only [Nat.lt_irrefl, if_false]
    exact ih b (fun subj hm => h subj (List.mem_cons_of_mem s hm))

theorem foldl_max_le_init : ∀ (l : List Nat) (n : Nat), n ≤ l.foldl Nat.max n := by
  intro l
  induction l with
  | nil => intro n; exact Nat.le_refl n
  | cons a t ih =>
    intro n
    exact Nat.le_trans (Nat.le_max_left n a) (ih (Nat.max n a))

theorem foldl_max_le_of_mem : ∀ (l : List Nat) (n x : Nat), x ∈ l → x ≤ l.foldl Nat.max n := by
  intro l
  induction l with
  | nil => intro n x hx; exact absurd hx (List.not_mem_nil x)
  | cons a t ih =>
    intro n x hx
    rcases List.mem_cons.mp hx with h | h
    · subst h
      exact Nat.le_trans (Nat.le_max_right n x) (foldl_max_le_init t (Nat.max n x))
    · exact ih (Nat.max n a) x h

theorem foldl_max_mem : ∀ (l : List Nat) (n : Nat),
    l.foldl Nat.max n = n ∨ l.foldl Nat.max n ∈ l := by
  intro l
  induction l with
  | nil => intro n; exact Or.inl rfl
  | cons a t ih =>
    intro n
    rcases ih (Nat.max n a) with h | h
    · rcases Nat.le_total n a with hle | hle
      · right
        rw [List.foldl_cons, h, natMax_eq_right hle]
        exact List.mem_cons_self a t
      · left
        rw [List.foldl_cons, h, natMax_eq_left hle]
    · right
      rw [List.foldl_cons]
      exact List.mem_cons_of_mem a h

/-! ## Claims about the heuristic matcher -/

/-- C1: for every question text and every syllabus catalog, the heuristic
fallback matcher's confidence score equals `min(0.95, 0.10 + 0.05 * s)`
where `s` is the maximum per-subject score (the fold of `Nat.max` over the
subject scores from 0; the last two conjuncts state that this fold is an
upper bound of the scores and is 0 or one of them), and the confidence is
therefore always in `[0.0, 0.95]`. -/
theorem keyword_matcher_confidence_formula :
    ∀ (q : Str) (syllabus : List Subject),
      (keywordMatcher q syllabus).confidence_score =
        min (0.95 : ℚ) ((0.1 : ℚ) +
          ((((syllabus.map (subjectScore (lowerStr q))).foldl Nat.max 0 : Nat) : ℚ)) * (0.05 : ℚ)) ∧
      (0 : ℚ) ≤ (keywordMatcher q syllabus).confidence_score ∧
      (keywordMatcher q syllabus).confidence_score ≤ (0.95 : ℚ) ∧
      ((syllabus.map (subjectScore (lowerStr q))).all
        (fun x => Nat.ble x ((syllabus.map (subjectScore (lowerStr q))).foldl Nat.max 0))) = true ∧
      ((syllabus.map (subjectScore (lowerStr q))).foldl Nat.max 0 = 0 ∨
        (syllabus.map (subjectScore (lowerStr q))).foldl Nat.max 0
          ∈ syllabus.map (subjectScore (lowerStr q))) := by
  intro q syllabus
  have hconf : (keywordMatcher q syllabus).confidence_score =
      min (0.95 : ℚ) ((0.1 : ℚ) +
        (((keywordMatcherLoop (lowerStr q) syllabus
            (0, sentinelResult q (heuristicQuestionType (lowerStr q)))).1 : Nat) : ℚ) * (0.05 : ℚ)) := rfl
  rw [matcher_foldl_fst (lowerStr q) syllabus] at hconf
  refine ⟨hconf, ?_, ?_, ?_, foldl_max_mem _ 0⟩
  · rw [hconf]
    apply le_min
    · norm_num
    · have h0 : (0 : ℚ) ≤
          ((((syllabus.map (subjectScore (lowerStr q))).foldl Nat.max 0 : Nat) : ℚ)) :=
        Nat.cast_nonneg _
      nlinarith
  · rw [hconf]
    exact min_le_left _ _
  · rw [List.all_eq_true]
    intro x hx
    have := foldl_max_le_of_mem (syllabus.map (subjectScore (lowerStr q))) 0 x hx
    exact Nat.ble_eq.mpr this

/-- C2 (amended): when every subject scores zero, `_keyword_matcher` returns
the sentinel "Not Found" attribution fields, but its confidence score is
`0.1` (the confidence formula applied to the zero score), not `0.0`. -/
theorem keyword_matcher_zero_score_sentinel :
    ∀ (q : Str) (syllabus : List Subject),
      (∀ subj ∈ syllabus, subjectScore (lowerStr q) subj = 0) →
      keywordMatcher q syllabus =
        { question_text := q, question_type := heuristicQuestionType (lowerStr q),
          probable_topic := nfStr, course_outcome := nfStr, subject_name := nfStr,
          subject_code := nfStr, year := nfStr, semester := nfStr,
          confidence_score := (0.1 : ℚ) } := by
  intro q syllabus h
  have hz : keywordMatcherLoop (lowerStr q) syllabus
      (0, sentinelResult q (heuristicQuestionType (lowerStr q))) =
      (0, sentinelResult q (heuristicQuestionType (lowerStr q))) :=
    matcher_foldl_zero (lowerStr q) syllabus _ h
  have hdef : keywordMatcher q syllabus =
      { (keywordMatcherLoop (lowerStr q) syllabus
          (0, sentinelResult q (heuristicQuestionType (lowerStr q)))).2 with
        confidence_score := min (0.95 : ℚ) ((0.1 : ℚ) +
          (((keywordMatcherLoop (lowerStr q) syllabus
              (0, sentinelResult q (heuristicQuestionType (lowerStr q)))).1 : Nat) : ℚ) *
            (0.05 : ℚ)) } := rfl
  rw [hdef, hz]
  have hmin : min (0.95 : ℚ) ((0.1 : ℚ) + (((0 : Nat) : ℚ)) * (0.05 : ℚ)) = (0.1 : ℚ) := by
    norm_num
  simp only [hmin]
  rfl

def zsQ : Str := str "hello"

def zsSubj : Subject := ⟨str "xyz", [], [], [], [], [], []⟩

/-- Witness for C2's amended theorem at a concrete catalog whose only
subject scores zero against the question. -/
theorem keyword_matcher_zero_score_sentinel_witness :
    keywordMatcher zsQ [zsSubj] =
      { question_text := zsQ, question_type := heuristicQuestionType (lowerStr zsQ),
        probable_topic := nfStr, course_outcome := nfStr, subject_name := nfStr,
        subject_code := nfStr, year := nfStr, semester := nfStr,
        confidence_score := (0.1 : ℚ) } :=
  keyword_matcher_zero_score_sentinel zsQ [zsSubj] (by decide)

/-- C2 counterexample: on a question/catalog pair where every subject scores
zero, the heuristic matcher's confidence is `0.1`, not `0.0` as the claim
states. -/
theorem keyword_matcher_zero_confidence_cex :
    subjectScore (lowerStr zsQ) zsSubj = 0 ∧
    (keywordMatcher zsQ [zsSubj]).confidence_score = (0.1 : ℚ) ∧
    ¬ (keywordMatcher zsQ [zsSubj]).confidence_score = (0 : ℚ) := by
  have hdef : (keywordMatcher zsQ [zsSubj]).confidence_score =
      min (0.95 : ℚ) ((0.1 : ℚ) +
        (((keywordMatcherLoop (lowerStr zsQ) [zsSubj]
            (0, sentinelResult zsQ (heuristicQuestionType (lowerStr zsQ)))).1 : Nat) : ℚ) *
          (0.05 : ℚ)) := rfl
  have hfst : (keywordMatcherLoop (lowerStr zsQ) [zsSubj]
      (0, sentinelResult zsQ (heuristicQuestionType (lowerStr zsQ)))).1 = 0 := by decide
  have hval : (keywordMatcher zsQ [zsSubj]).confidence_score = (0.1 : ℚ) := by
    rw [hdef, hfst]; norm_num
  refine ⟨by decide, hval, ?_⟩
  rw [hval]
  norm_num

/-- C5: whenever the Gemini attempt raises (with any message `e`), the
analysis of any question against any catalog still returns exactly one
result record, whose nine attribution fields are exactly the heuristic
fallback matcher's output, whose `error_message` records the failure
reason, and whose `ai_raw_output` stays `None`; no exception escapes
(`analyzeQuestion` is total and returns a record, not an error). -/
theorem analyze_question_fallback_on_ai_failure :
    ∀ (q : Str) (syllabus : List Subject) (e : Str),
      analyzeQuestion (some (Except.error e)) q syllabus =
        ⟨keywordMatcher q syllabus, none, some (str "Gemini error: " ++ e)⟩ := by
  intro q syllabus e
  rfl

/-- C8: the keyword question-type rules are applied in a fixed order and a
later rule overwrites an earlier one, so the result equals the MCQ label
whenever the MCQ rule fires, the broad-answer label when only the earlier
rules up to it fire, and so on; the matcher's `question_type` field is
exactly this classification. -/
theorem question_type_rule_order :
    ∀ (q : Str) (syllabus : List Subject),
      (keywordMatcher q syllabus).question_type = heuristicQuestionType (lowerStr q) ∧
      (mcqHit (lowerStr q) = true → heuristicQuestionType (lowerStr q) = str "MCQ") ∧
      (mcqHit (lowerStr q) = false → broadAnswerHit (lowerStr q) = true →
        heuristicQuestionType (lowerStr q) = str "Broad Answer") ∧
      (mcqHit (lowerStr q) = false → broadAnswerHit (lowerStr q) = false →
        shortAnswerHit (lowerStr q) = true →
        heuristicQuestionType (lowerStr q) = str "Short Answer") ∧
      (mcqHit (lowerStr q) = false → broadAnswerHit (lowerStr q) = false →
        shortAnswerHit (lowerStr q) = false →
        heuristicQuestionType (lowerStr q) = str "Other") := by
  intro q syllabus
  refine ⟨?_, ?_, ?_, ?_, ?_⟩
  · have : (keywordMatcher q syllabus).question_type =
        (keywordMatcherLoop (lowerStr q) syllabus
          (0, sentinelResult q (heuristicQuestionType (lowerStr q)))).2.question_type := rfl
    rw [this, matcher_foldl_qt]
    rfl
  · intro hm; simp [heuristicQuestionType, hm]
  · intro hm hb; simp [heuristicQuestionType, hm, hb]
  · intro hm hb hs; simp [heuristicQuestionType, hm, hb, hs]
  · intro hm hb hs; simp [heuristicQuestionType, hm, hb, hs]

def qtQ : Str := str "Define and explain; choose one"

/-- Witness for C8 at a concrete question that triggers all three rule
groups: the MCQ rule, evaluated last, wins. -/
theorem question_type_rule_order_witness :
    (keywordMatcher qtQ []).question_type = heuristicQuestionType (lowerStr qtQ) ∧
    heuristicQuestionType (lowerStr qtQ) = str "MCQ" ∧
    mcqHit (lowerStr qtQ) = true ∧ broadAnswerHit (lowerStr qtQ) = true ∧
    shortAnswerHit (lowerStr qtQ) = true :=
  ⟨(question_type_rule_order qtQ []).1,
   (question_type_rule_order qtQ []).2.1 (by decide), by decide, by decide, by decide⟩

/-! ## Supporting lemmas for structured validation -/

theorem pyStripJ_error_attr : ∀ (v : JValue) (e : PyErr),
    pyStripJ v = Except.error e → ∃ m, e = PyErr.attributeError m := by
  intro v e h
  cases v with
  | str s => cases h
  | null => cases h; exact ⟨_, rfl⟩
  | bool b => cases h; exact ⟨_, rfl⟩
  | num n => cases h; exact ⟨_, rfl⟩
  | arr l => cases h; exact ⟨_, rfl⟩
  | obj kvs => cases h; exact ⟨_, rfl⟩

theorem buildRecord_error_attr : ∀ (kvs : List (Str × JValue)) (e : PyErr),
    buildRecord kvs = Except.error e → ∃ m, e = PyErr.attributeError m := by
  intro kvs e h
  unfold buildRecord at h
  split at h
  next e1 h1 =>
    cases h
    exact pyStripJ_error_attr _ _ h1
  next subject h1 =>
    split at h
    next e2 h2 =>
      cases h
      exact pyStripJ_error_attr _ _ h2
    next code h2 => cases h

theorem validateItems_not_invalid : ∀ items, isInvalidFormat (validateItems items) = false := by
  intro items
  induction items with
  | nil => rfl
  | cons item rest ih =>
    cases item with
    | obj kvs =>
      show isInvalidFormat (match buildRecord kvs with
        | .ok r => match validateItems rest with
          | .ok rs => Except.ok (r :: rs)
          | .error e => Except.error e
        | .error e => Except.error e) = false
      cases hb : buildRecord kvs with
      | error e =>
        obtain ⟨m, rfl⟩ := buildRecord_error_attr kvs e hb
        rfl
      | ok r =>
        cases hr : validateItems rest with
        | error e =>
          rw [hr] at ih
          exact ih
        | ok rs => rfl
    | null => exact ih
    | bool b => exact ih
    | num n => exact ih
    | str s => exact ih
    | arr l => exact ih

/-- C9 (amended): `validate_syllabus_json` raises the `InvalidFormat` error
(`ValueError`) if and only if the top-level input is not a sequence, and it
skips non-mapping sequence elements; it is not true that a sequence input
can never raise (see the counterexample: a truthy non-string subject value
raises `AttributeError`). -/
theorem validate_invalid_format_iff_not_list :
    (∀ v : JValue, isInvalidFormat (validateSyllabusJson v) = !isArr v) ∧
    (∀ (item : JValue) (rest : List JValue), isObj item = false →
      validateSyllabusJson (JValue.arr (item :: rest)) = validateSyllabusJson (JValue.arr rest)) := by
  constructor
  · intro v
    cases v with
    | arr items => exact validateItems_not_invalid items
    | null => rfl
    | bool b => rfl
    | num n => rfl
    | str s => rfl
    | obj kvs => rfl
  · intro item rest h
    cases item with
    | obj kvs => simp [isObj] at h
    | null => rfl
    | bool b => rfl
    | num n => rfl
    | str s => rfl
    | arr l => rfl

/-- Witness for C9's amended theorem: a mapping input raises `InvalidFormat`,
and a non-mapping element of a sequence is skipped. -/
theorem validate_invalid_format_iff_not_list_witness :
    isInvalidFormat (validateSyllabusJson (JValue.obj [])) = true ∧
    validateSyllabusJson (JValue.arr [JValue.num 5]) = validateSyllabusJson (JValue.arr []) :=
  ⟨(validate_invalid_format_iff_not_list.1 (JValue.obj [])).trans rfl,
   validate_invalid_format_iff_not_list.2 (JValue.num 5) [] rfl⟩

def c9bad : JValue := JValue.arr [JValue.obj [(str "subject", JValue.num 1)]]

/-- C9 counterexample: the sequence input `[{"subject": 1}]` makes
`validate_syllabus_json` raise (`.strip()` on an integer raises
`AttributeError`), refuting "for sequence inputs it never raises"; the
raised error is not the `InvalidFormat` error. -/
theorem validate_sequence_raises_cex :
    isAttrErrorRes (validateSyllabusJson c9bad) = true ∧
    isInvalidFormat (validateSyllabusJson c9bad) = false :=
  ⟨rfl, rfl⟩

/-- C6 (amended): structured validation keeps exactly one record per mapping
element of the sequence — dropping only non-mapping elements — so records
whose resolved subject name is empty are retained, not dropped. -/
theorem validate_output_count_eq_mapping_count :
    ∀ (items : List JValue) (out : List VRecord),
      validateSyllabusJson (JValue.arr items) = .ok out →
      out.length = (items.filter isObj).length := by
  intro items
  induction items with
  | nil =>
    intro out h
    cases h
    rfl
  | cons item rest ih =>
    intro out h
    cases item with
    | obj kvs =>
      have hh : (match buildRecord kvs with
          | .ok r => match validateItems rest with
            | .ok rs => Except.ok (r :: rs)
            | .error e => Except.error e
          | .error e => (Except.error e : Except PyErr (List VRecord))) = .ok out := h
      cases hb : buildRecord kvs with
      | error e => rw [hb] at hh; cases hh
      | ok r =>
        rw [hb] at hh
        cases hr : validateItems rest with
        | error e => rw [hr] at hh; cases hh
        | ok rs =>
          rw [hr] at hh
          cases hh
          have := ih rs hr
          simp [List.filter, isObj, this]
    | null => exact (ih out h).trans (by simp [List.filter, isObj])
    | bool b => exact (ih out h).trans (by simp [List.filter, isObj])
    | num n => exact (ih out h).trans (by simp [List.filter, isObj])
    | str s => exact (ih out h).trans (by simp [List.filter, isObj])
    | arr l => exact (ih out h).trans (by simp [List.filter, isObj])

def c6empty : VRecord := ⟨[], [], .str [], .str [], [], [], .str []⟩

/-- Witness for C6's amended theorem on the concrete sequence
`[{}, 3]`: one mapping element, one output record. -/
theorem validate_output_count_eq_mapping_count_witness :
    ([c6empty] : List VRecord).length = ([JValue.obj [], JValue.num 3].filter isObj).length :=
  validate_output_count_eq_mapping_count [JValue.obj [], JValue.num 3] [c6empty] rfl

/-- C6 counterexample: the mapping `{}` resolves to an empty subject name and
is nonetheless kept by structured validation, refuting "elements whose
resolved subject name is empty are dropped". -/
theorem validate_keeps_empty_named_record_cex :
    validateSyllabusJson (JValue.arr [JValue.obj []]) = .ok [c6empty] ∧
    c6empty.subject = [] :=
  ⟨rfl, rfl⟩

/-! ## Supporting lemmas for topic/outcome cleanup -/

theorem dropWhile_head_false (p : Char → Bool) :
    ∀ (l : Str) (c : Char), (l.dropWhile p).head? = some c → p c = false := by
  intro l
  induction l with
  | nil =>
    intro c h
    simp [List.dropWhile] at h
  | cons a t ih =>
    intro c h
    cases hpa : p a with
    | true =>
      rw [List.dropWhile_cons, if_pos hpa] at h
      exact ih c h
    | false =>
      rw [List.dropWhile_cons, if_neg (by simp [hpa])] at h
      injection h with h2
      rw [← h2]
      exact hpa

theorem dropWhile_eq_self (p : Char → Bool) (l : Str)
    (h : ∀ c, l.head? = some c → p c = false) : l.dropWhile p = l := by
  cases l with
  | nil => rfl
  | cons a t =>
    have hpa : p a = false := h a rfl
    rw [List.dropWhile_cons, if_neg (by simp [hpa])]

theorem dropWhile_getLast (p : Char → Bool) :
    ∀ (l : Str), l.dropWhile p ≠ [] → (l.dropWhile p).getLast? = l.getLast? := by
  intro l
  induction l with
  | nil => intro h; exact absurd rfl h
  | cons a t ih =>
    intro h
    cases hpa : p a with
    | false =>
      rw [List.dropWhile_cons, if_neg (by simp [hpa])]
    | true =>
      rw [List.dropWhile_cons, if_pos hpa] at h ⊢
      cases t with
      | nil => exact absurd rfl h
      | cons b u =>
        rw [ih h]
        exact (List.getLast?_cons_cons (l := u)).symm

theorem strip_core (l : Str)
    (hl : ∀ c, l.head? = some c → isPySpace c = false)
    (hr : ∀ c, l.getLast? = some c → isPySpace c = false) :
    pstrip l = l := by
  unfold pstrip
  rw [dropWhile_eq_self _ _ hl]
  have h2 : ∀ c, l.reverse.head? = some c → isPySpace c = false := by
    intro c hc
    rw [List.head?_reverse] at hc
    exact hr c hc
  rw [dropWhile_eq_self _ _ h2, List.reverse_reverse]

theorem pstrip_head (s : Str) :
    ∀ c, (pstrip s).head? = some c → isPySpace c = false := by
  intro c hc
  unfold pstrip at hc
  rw [List.head?_reverse] at hc
  by_cases hte : (s.dropWhile isPySpace).reverse.dropWhile isPySpace = []
  · rw [hte] at hc
    cases hc
  · rw [dropWhile_getLast isPySpace _ hte, List.getLast?_reverse] at hc
    exact dropWhile_head_false isPySpace s c hc

theorem pstrip_last (s : Str) :
    ∀ c, (pstrip s).getLast? = some c → isPySpace c = false := by
  intro c hc
  unfold pstrip at hc
  rw [List.getLast?_reverse] at hc
  exact dropWhile_head_false isPySpace _ c hc

theorem pstrip_idem (s : Str) : pstrip (pstrip s) = pstrip s :=
  strip_core (pstrip s) (pstrip_head s) (pstrip_last s)

theorem dedupFirst_go_nodup : ∀ (l acc : List Str), acc.Nodup →
    (l.foldl (fun acc t => if t ∈ acc then acc else acc ++ [t]) acc).Nodup := by
  intro l
  induction l with
  | nil => intro acc h; exact h
  | cons a t ih =>
    intro acc h
    rw [List.foldl_cons]
    by_cases ha : a ∈ acc
    · rw [if_pos ha]
      exact ih acc h
    · rw [if_neg ha]
      apply ih
      rw [List.nodup_append]
      refine ⟨h, List.nodup_singleton a, ?_⟩
      intro x hx hxa
      rw [List.mem_singleton] at hxa
      subst hxa
      exact ha hx

theorem dedupFirst_go_mem : ∀ (l acc : List Str) (x : Str),
    x ∈ l.foldl (fun acc t => if t ∈ acc then acc else acc ++ [t]) acc → x ∈ acc ∨ x ∈ l := by
  intro l
  induction l with
  | nil => intro acc x h; exact Or.inl h
  | cons a t ih =>
    intro acc x h
    rw [List.foldl_cons] at h
    by_cases ha : a ∈ acc
    · rw [if_pos ha] at h
      rcases ih acc x h with h2 | h2
      · exact Or.inl h2
      · exact Or.inr (List.mem_cons_of_mem a h2)
    · rw [if_neg ha] at h
      rcases ih (acc ++ [a]) x h with h2 | h2
      · rcases List.mem_append.mp h2 with h3 | h3
        · exact Or.inl h3
        · rw [List.mem_singleton] at h3
          exact Or.inr (h3 ▸ List.mem_cons_self a t)
      · exact Or.inr (List.mem_cons_of_mem a h2)

theorem dedupFirst_nodup (l : List Str) : (dedupFirst l).Nodup :=
  dedupFirst_go_nodup l [] List.nodup_nil

theorem dedupFirst_mem (l : List Str) (x : Str) (h : x ∈ dedupFirst l) : x ∈ l := by
  rcases dedupFirst_go_mem l [] x h with h2 | h2
  · exact absurd h2 (List.not_mem_nil x)
  · exact h2

theorem filterMap_eq_self (f : Str → Option Str) :
    ∀ (l : List Str), (∀ t ∈ l, f t = some t) → l.filterMap f = l := by
  intro l
  induction l with
  | nil => intro _; rfl
  | cons a t ih =>
    intro h
    rw [List.filterMap_cons, h a (List.mem_cons_self a t),
        ih (fun x hx => h x (List.mem_cons_of_mem a hx))]

theorem cleanupEntries_eq_dedup (l : List Str)
    (h : ∀ t ∈ l, t ≠ [] ∧ pstrip t = t) : cleanupEntries l = dedupFirst l := by
  unfold cleanupEntries
  apply filterMap_eq_self
  intro t ht
  obtain ⟨hne, hst⟩ := h t (dedupFirst_mem l t ht)
  show (if (pstrip t).isEmpty then none else some (pstrip t)) = some t
  rw [hst]
  have hemp : t.isEmpty = false := by
    cases t with
    | nil => exact absurd rfl hne
    | cons _ _ => rfl
  simp [hemp]

theorem extractLoop_inv :
    ∀ (lines : List Str) (m : Bool) (tp cs : List Str),
      (∀ l ∈ lines, l ≠ [] ∧ pstrip l = l) →
      (∀ t ∈ tp, t ≠ [] ∧ pstrip t = t) →
      (∀ c ∈ cs, c ≠ [] ∧ pstrip c = c) →
      (∀ t ∈ (extractLoop lines m tp cs).1, t ≠ [] ∧ pstrip t = t) ∧
      (∀ c ∈ (extractLoop lines m tp cs).2, c ≠ [] ∧ pstrip c = c) := by
  intro lines
  induction lines with
  | nil => intro m tp cs _ h2 h3; exact ⟨h2, h3⟩
  | cons line rest ih =>
    intro m tp cs h1 h2 h3
    have hline := h1 line (List.mem_cons_self line rest)
    have hrest : ∀ l ∈ rest, l ≠ [] ∧ pstrip l = l :=
      fun l hl => h1 l (List.mem_cons_of_mem line hl)
    simp only [extractLoop]
    by_cases hco : coTrigger (lowerStr line) = true
    · rw [if_pos hco]
      apply ih true tp _ hrest h2
      by_cases hrem : (pstrip (stripCoHeader line)).isEmpty = true
      · rw [if_pos hrem]
        exact h3
      · rw [if_neg hrem]
        intro c hc
        rcases List.mem_append.mp hc with h | h
        · exact h3 c h
        · rw [List.mem_singleton] at h
          subst h
          refine ⟨?_, pstrip_idem _⟩
          intro hemp
          apply hrem
          rw [hemp]
          rfl
    · rw [if_neg hco]
      by_cases hm : m = true
      · rw [if_pos hm]
        apply ih true tp _ hrest h2
        intro c hc
        rcases List.mem_append.mp hc with h | h
        · exact h3 c h
        · rw [List.mem_singleton] at h
          subst h
          exact hline
      · rw [if_neg hm]
        by_cases ht : topicLineHit line = true
        · rw [if_pos ht]
          apply ih false _ cs hrest ?_ h3
          intro t hti
          rcases List.mem_append.mp hti with h | h
          · exact h2 t h
          · rw [List.mem_singleton] at h
            subst h
            exact hline
        · rw [if_neg ht]
          by_cases hlen : (pySplit line).length ≤ 12
          · rw [if_pos hlen]
            apply ih false _ cs hrest ?_ h3
            intro t hti
            rcases List.mem_append.mp hti with h | h
            · exact h2 t h
            · rw [List.mem_singleton] at h
              subst h
              exact hline
          · rw [if_neg hlen]
            exact ih false tp cs hrest h2 h3

theorem blockLines_prop (block : Str) :
    ∀ l ∈ blockLines block, l ≠ [] ∧ pstrip l = l := by
  intro l hl
  unfold blockLines at hl
  rw [List.mem_filter] at hl
  obtain ⟨hmem, hne⟩ := hl
  rw [List.mem_map] at hmem
  obtain ⟨x, _, hx⟩ := hmem
  refine ⟨?_, ?_⟩
  · intro hemp
    rw [hemp] at hne
    simp at hne
  · rw [← hx]
    exact pstrip_idem x

/-- C7 (amended): for every block handled by heuristic text parsing,
`extract_topics_and_cos` yields topic and outcome lists that are exactly the
first-seen-order deduplication of the raw scan lists, with no duplicates and
no blank or whitespace-only entries (every entry is non-empty and equal to
its own strip).  Structured validation does not provide this guarantee — see
the counterexample. -/
theorem extract_topics_cos_clean :
    ∀ (block : Str),
      (extractTopicsAndCos block).1 = dedupFirst (extractRaw block).1 ∧
      (extractTopicsAndCos block).2 = dedupFirst (extractRaw block).2 ∧
      (extractTopicsAndCos block).1.Nodup ∧
      (extractTopicsAndCos block).2.Nodup ∧
      ((extractTopicsAndCos block).1.all (fun t => !t.isEmpty && (pstrip t == t))) = true ∧
      ((extractTopicsAndCos block).2.all (fun t => !t.isEmpty && (pstrip t == t))) = true := by
  intro block
  have hlines : ∀ l ∈ (blockLines block).drop 1, l ≠ [] ∧ pstrip l = l :=
    fun l hl => blockLines_prop block l (List.drop_subset 1 _ hl)
  have hinv := extractLoop_inv ((blockLines block).drop 1) false [] [] hlines
    (by intro t ht; cases ht) (by intro c hc; cases hc)
  have he1 : (extractTopicsAndCos block).1 = dedupFirst (extractRaw block).1 :=
    cleanupEntries_eq_dedup _ hinv.1
  have he2 : (extractTopicsAndCos block).2 = dedupFirst (extractRaw block).2 :=
    cleanupEntries_eq_dedup _ hinv.2
  refine ⟨he1, he2, ?_, ?_, ?_, ?_⟩
  · rw [he1]; exact dedupFirst_nodup _
  · rw [he2]; exact dedupFirst_nodup _
  · rw [List.all_eq_true]
    intro t ht
    rw [he1] at ht
    obtain ⟨hne, hst⟩ := hinv.1 t (dedupFirst_mem _ t ht)
    have hemp : t.isEmpty = false := by
      cases t with
      | nil => exact absurd rfl hne
      | cons _ _ => rfl
    rw [hst]
    simp [hemp]
  · rw [List.all_eq_true]
    intro t ht
    rw [he2] at ht
    obtain ⟨hne, hst⟩ := hinv.2 t (dedupFirst_mem _ t ht)
    have hemp : t.isEmpty = false := by
      cases t with
      | nil => exact absurd rfl hne
      | cons _ _ => rfl
    rw [hst]
    simp [hemp]

def c7input : JValue :=
  JValue.arr [JValue.obj [(str "subject", JValue.str (str "X")),
    (str "topics", JValue.arr [JValue.str (str "a"), JValue.str (str "a"), JValue.str []])]]

def c7rec : VRecord :=
  ⟨str "X", [], JValue.str [], JValue.str [],
   [JValue.str (str "a"), JValue.str (str "a"), JValue.str []], [], JValue.str []⟩

/-- C7 counterexample: structured validation passes a list-valued `topics`
field through unchanged, so the validated record for
`[{"subject": "X", "topics": ["a", "a", ""]}]` keeps the duplicate entry and
the blank entry, refuting the claim for the structured-validation path. -/
theorem validate_topics_passthrough_cex :
    validateSyllabusJson c7input = .ok [c7rec] ∧
    jStrListD c7rec.topics = [str "a", str "a", []] ∧
    ¬ (jStrListD c7rec.topics).Nodup ∧
    ([] : Str) ∈ jStrListD c7rec.topics :=
  ⟨rfl, rfl, by decide, by decide⟩

/-! ## Concrete examples from the specification -/

def c3input : Str :=
  str "(IT/PC/B/T/211) Data Structures\nIntroduction: arrays, lists.\nCourse Outcomes: CO1 understand structures"

/-- C3 (amended): on the specification's example syllabus text, the permissive
heading pattern classifies all three lines as subject headings, so
`parse_syllabus_text` yields exactly three records: the first carries
`subject_code = "IT/PC/B/T/211"` and `subject = "Data Structures"`, the other
two are spurious one-line records, and every record has empty topics and
course outcomes (so no topic contains "Introduction" and no outcome contains
"CO1"). -/
theorem parse_syllabus_example_exact_output :
    parseSyllabusText c3input =
      [⟨str "Data Structures", str "IT/PC/B/T/211", [], [], [], [],
        str "(IT/PC/B/T/211) Data Structures"⟩,
       ⟨str "arrays, lists.", str "Introduction", [], [], [], [],
        str "Introduction: arrays, lists."⟩,
       ⟨str "Outcomes: CO1 understand structures", str "Course", [], [], [], [],
        str "Course Outcomes: CO1 understand structures"⟩] := by decide

/-- C3 counterexample: the example text yields three records, not exactly
one as the claim states. -/
theorem parse_syllabus_example_three_records_cex :
    (parseSyllabusText c3input).length = 3 ∧ (parseSyllabusText c3input).length ≠ 1 := by
  decide

def c4input : Str := str "1. Define OSI model. 2. Explain TCP congestion control."

/-- C4 (amended): the active question-split pattern only splits at a marker
preceded by a newline, and the example text is a single line, so
segmentation yields exactly one question unit — the whole text (longer than
10 characters) — not two. -/
theorem segment_example_exact_output :
    segmentQuestions c4input = [c4input] ∧ 10 < c4input.length := by
  refine ⟨by decide, by decide⟩

/-- C4 counterexample: the example text yields one question unit, not the two
the claim states. -/
theorem segment_example_single_unit_cex :
    (segmentQuestions c4input).length = 1 ∧ (segmentQuestions c4input).length ≠ 2 := by
  decide

/-! ## Characterizing the subject-heading pattern (C10) -/

theorem findSome?_isSome_of_mem {α β : Type} (f : α → Option β) :
    ∀ (l : List α) (a : α), a ∈ l → (f a).isSome = true → (l.findSome? f).isSome = true := by
  intro l
  induction l with
  | nil => intro a ha _; exact absurd ha (List.not_mem_nil a)
  | cons b t ih =>
    intro a ha hf
    show (match f b with
      | some x => some x
      | none => t.findSome? f).isSome = true
    cases hfb : f b with
    | some x => rfl
    | none =>
      rcases List.mem_cons.mp ha with h | h
      · subst h
        rw [hfb] at hf
        cases hf
      · exact ih a h hf

theorem mem_descRange (m k : Nat) (h : k ≤ m) : k ∈ descRange m := by
  unfold descRange
  rw [List.mem_reverse, List.mem_range]
  omega

/-- The success shape of `tryCode`: a leading code character and at least one
further character. -/
def shape2 (s : Str) : Bool :=
  match s with
  | c :: _ :: _ => isCodeChar c
  | _ => false

theorem shape2_cons (c : Char) (v : Str) : shape2 (c :: v) = (!v.isEmpty && isCodeChar c) := by
  cases v with
  | nil => rfl
  | cons d t => simp [shape2]

theorem tryTail_nil : tryTail [] = none := rfl

theorem wsSearchFrom_isSome : ∀ (u : Str), (wsSearchFrom u).isSome = !u.isEmpty := by
  intro u
  cases u with
  | nil => rfl
  | cons c v =>
    show (wsSearchFrom (c :: v)).isSome = true
    unfold wsSearchFrom
    apply findSome?_isSome_of_mem _ _ 0 (mem_descRange _ 0 (Nat.zero_le _))
    rfl

theorem sepSearch_isSome : ∀ (u : Str), (sepSearch u).isSome = !u.isEmpty := by
  intro u
  cases u with
  | nil => rfl
  | cons c v =>
    show (sepSearch (c :: v)).isSome = true
    simp only [sepSearch]
    by_cases hc : (c = '-' || c = ':' || c = ')') = true
    · rw [if_pos hc]
      cases hw : wsSearchFrom v with
      | some t => rfl
      | none => simpa using wsSearchFrom_isSome (c :: v)
    · rw [if_neg hc]
      simpa using wsSearchFrom_isSome (c :: v)

theorem tailSepSearch_isSome : ∀ (s : Str), (tailSepSearch s).isSome = !s.isEmpty := by
  intro s
  cases s with
  | nil => rfl
  | cons c v =>
    show (tailSepSearch (c :: v)).isSome = true
    unfold tailSepSearch
    apply findSome?_isSome_of_mem _ _ 0 (mem_descRange _ 0 (Nat.zero_le _))
    simpa using sepSearch_isSome (c :: v)

theorem tryTail_isSome : ∀ (r : Str), (tryTail r).isSome = !r.isEmpty := by
  intro r
  cases r with
  | nil => rfl
  | cons c v =>
    show (tryTail (c :: v)).isSome = true
    simp only [tryTail]
    by_cases hc : c = ')'
    · rw [if_pos hc]
      cases ht : tailSepSearch v with
      | some t => rfl
      | none => simpa using tailSepSearch_isSome (c :: v)
    · rw [if_neg hc]
      simpa using tailSepSearch_isSome (c :: v)

theorem tryCode_isSome : ∀ (s : Str), (tryCode s).isSome = shape2 s := by
  intro s
  match s with
  | [] => rfl
  | [c] =>
    show (tryCode [c]).isSome = false
    by_cases hc : isCodeChar c = true
    · have hval : tryCode [c] = none := by
        unfold tryCode
        rw [List.takeWhile_cons, if_pos hc]
        rfl
      rw [hval]
      rfl
    · have hval : tryCode [c] = none := by
        unfold tryCode
        dsimp only
        rw [List.takeWhile_cons, if_neg hc]
        rfl
      rw [hval]
      rfl
  | c :: d :: t =>
    show (tryCode (c :: d :: t)).isSome = isCodeChar c
    by_cases hc : isCodeChar c = true
    · rw [hc]
      unfold tryCode
      dsimp only
      rw [List.takeWhile_cons, if_pos hc,
        if_neg (by simp : ¬((c :: List.takeWhile isCodeChar (d :: t)).isEmpty = true))]
      apply findSome?_isSome_of_mem _ _ 1
        (mem_descRange _ 1 (by simp [List.length_cons]))
      have htt : (tryTail ((c :: d :: t).drop 1)).isSome = true := by
        simpa using tryTail_isSome (d :: t)
      obtain ⟨t2, ht2⟩ := Option.isSome_iff_exists.mp htt
      show (if (1 : Nat) = 0 then none
        else match tryTail ((c :: d :: t).drop 1) with
          | some t3 => some (((c :: d :: t) : Str).take 1, t3)
          | none => none).isSome = true
      rw [if_neg (by omega), ht2]
      rfl
    · have hcf : isCodeChar c = false := by simpa using hc
      rw [hcf]
      have hval : tryCode (c :: d :: t) = none := by
        unfold tryCode
        dsimp only
        rw [List.takeWhile_cons, if_neg hc]
        rfl
      rw [hval]
      rfl

/-- The shape from the claim: after optional leading whitespace, an optional
opening parenthesis, then at least one letter, digit or slash, then at least
one further character. -/
def claimShape (line : Str) : Bool :=
  match line.dropWhile isPySpace with
  | c :: v => if c = '(' then shape2 v else (!v.isEmpty && isCodeChar c)
  | [] => false

theorem headingMatch_isSome : ∀ (line : Str), (headingMatch line).isSome = claimShape line := by
  intro line
  unfold headingMatch claimShape
  cases hr : line.dropWhile isPySpace with
  | nil => rfl
  | cons c v =>
    dsimp only
    by_cases hc : c = '('
    · rw [if_pos hc, if_pos hc]
      have hparen : tryCode ('(' :: v) = none := by
        unfold tryCode
        dsimp only
        rw [List.takeWhile_cons, if_neg (show ¬(isCodeChar '(' = true) by decide)]
        rfl
      subst hc
      cases htc : tryCode v with
      | some res =>
        have h2 := tryCode_isSome v
        rw [htc] at h2
        exact h2
      | none =>
        rw [hparen]
        have h2 := tryCode_isSome v
        rw [htc] at h2
        exact h2
    · rw [if_neg hc, if_neg hc]
      rw [tryCode_isSome (c :: v), shape2_cons]

theorem headingIdxs_isEmpty (lines : List Str) :
    (headingIdxs lines).isEmpty = lines.all (fun l => !(headingMatch l).isSome) := by
  rw [Bool.eq_iff_iff, List.isEmpty_iff, List.all_eq_true]
  unfold headingIdxs
  rw [List.filter_eq_nil_iff]
  constructor
  · intro h l hl
    obtain ⟨i, hi, hgi⟩ := List.mem_iff_getElem.mp hl
    have h2 := h i (List.mem_range.mpr hi)
    rw [List.getD_eq_getElem _ _ hi, hgi, Bool.not_eq_true] at h2
    rw [h2]
    rfl
  · intro h i hmem
    rw [List.mem_range] at hmem
    rw [List.getD_eq_getElem _ _ hmem]
    have h2 := h (lines[i]) (List.getElem_mem hmem)
    rw [Bool.not_eq_true'] at h2
    rw [Bool.not_eq_true, h2]

theorem headingBlocksAux_length (lines : List Str) :
    ∀ (idxs : List Nat), (headingBlocksAux lines idxs).length = idxs.length := by
  intro idxs
  induction idxs with
  | nil => rfl
  | cons start rest ih =>
    simp only [headingBlocksAux, List.length_cons]
    rw [ih]

theorem applyYearSem_length (ys : Option (Str × Str)) (blocks : List Subject) :
    (applyYearSem ys blocks).length = blocks.length := by
  cases ys with
  | none => rfl
  | some p => simp [applyYearSem]

/-- C10: a line is classified as a subject heading exactly when, after
optional leading whitespace, it consists of an optional `(`, then at least
one letter/digit/slash, then at least one further character (`claimShape`);
the paragraph fallback of `parse_syllabus_text` runs exactly when no line
has that shape; and when some line does, each heading line starts its own
record, so the catalog has one record per heading line (and otherwise one
per non-blank paragraph). -/
theorem heading_shape_characterization :
    (∀ line : Str, (headingMatch line).isSome = claimShape line) ∧
    (∀ raw : Str, (headingIdxs (splitlinesPy raw)).isEmpty =
      (splitlinesPy raw).all (fun l => !claimShape l)) ∧
    (∀ raw : Str, (parseSyllabusText raw).length =
      if (headingIdxs (splitlinesPy raw)).isEmpty then
        (((splitSub (str "\n\n") raw).map pstrip).filter (fun p => !p.isEmpty)).length
      else (headingIdxs (splitlinesPy raw)).length) := by
  refine ⟨headingMatch_isSome, ?_, ?_⟩
  · intro raw
    rw [headingIdxs_isEmpty]
    congr 1
    funext l
    rw [headingMatch_isSome]
  · intro raw
    unfold parseSyllabusText
    by_cases h : (headingIdxs (splitlinesPy raw)).isEmpty = true
    · rw [if_pos h, if_pos h]
      unfold paragraphRecords
      rw [List.length_map]
    · rw [if_neg h, if_neg h]
      rw [applyYearSem_length, headingBlocksAux_length]
